import Mathlib

/-!
Verification development for the metacleaner request pipeline
(src/main.py).  The filesystem is modelled as an association list from
resolved paths to entries carrying content and the permission bits the
pipeline inspects; the metadata engine (libmat2) is an abstract structure
of functions; the two endpoint handlers become pure functions returning
the HTTP-level outcome, the final filesystem, and a trace of the
pipeline events they perform.
-/

namespace MetaCleaner

/-- Byte strings are modelled as lists of naturals, one per byte. -/
abbrev Bytes := List Nat

/-- Metadata mappings returned by the engine. -/
abbrev Meta := List (String × String)

/-- A filesystem entry: byte content together with the type and
permission bits the pipeline inspects via os.path.isfile and os.access. -/
structure FileEntry where
  content : Bytes
  readable : Bool
  writable : Bool
  isRegular : Bool
deriving Repr, DecidableEq

/-- The filesystem: an association list from resolved paths to entries. -/
abbrev FS := List (String × FileEntry)

/-- Lookup of a path in the filesystem. -/
def fsLookup : FS → String → Option FileEntry
  | [], _ => none
  | (q, e) :: rest, p => if q = p then some e else fsLookup rest p

/-- Drop every binding of a path. -/
def fsErase (fs : FS) (p : String) : FS :=
  fs.filter (fun kv => kv.1 != p)

/-- Create or overwrite the entry at a path. -/
def fsSet (fs : FS) (p : String) (e : FileEntry) : FS :=
  (p, e) :: fsErase fs p

/-- Read permission bit, as in the os module. -/
def R_OK : Nat := 4

/-- Write permission bit, as in the os module. -/
def W_OK : Nat := 2

/-- os.path.exists on the modelled filesystem. -/
def path_exists (fs : FS) (p : String) : Bool := (fsLookup fs p).isSome

/-- os.path.isfile on the modelled filesystem. -/
def isfile (fs : FS) (p : String) : Bool :=
  match fsLookup fs p with
  | some e => e.isRegular
  | none => false

/-- os.access: the entry exists and carries every requested permission bit. -/
def os_access (fs : FS) (p : String) (mode : Nat) : Bool :=
  match fsLookup fs p with
  | some e => (mode &&& R_OK == 0 || e.readable) && (mode &&& W_OK == 0 || e.writable)
  | none => false

/-- os.remove: fails when the path is missing or not a regular file. -/
def os_remove (fs : FS) (p : String) : Except String FS :=
  match fsLookup fs p with
  | none => Except.error "FileNotFoundError"
  | some e =>
      if e.isRegular then Except.ok (fsErase fs p) else Except.error "IsADirectoryError"

/-- os.rename: moves the entry at src over dst, failing when src is missing. -/
def os_rename (fs : FS) (src dst : String) : Except String FS :=
  match fsLookup fs src with
  | none => Except.error "FileNotFoundError"
  | some e => Except.ok (fsSet (fsErase fs src) dst e)

/-- shutil.copymode: copies the permission bits of src onto dst. -/
def shutil_copymode (fs : FS) (src dst : String) : Except String FS :=
  match fsLookup fs src, fsLookup fs dst with
  | some es, some ed =>
      Except.ok (fsSet fs dst { ed with readable := es.readable, writable := es.writable })
  | _, _ => Except.error "FileNotFoundError"

/-- Whether a path is absolute, that is, begins with a slash. -/
def isAbsolute (p : String) : Bool :=
  match p.toList with
  | [] => false
  | c :: _ => c == '/'

/-- Resolution of a possibly relative path against the working directory. -/
def resolve (cwd p : String) : String :=
  if isAbsolute p then p else cwd ++ "/" ++ p

/-- os.path.abspath relative to the working directory. -/
def os_abspath (cwd p : String) : String := resolve cwd p

/-- Rightmost position of a character in a list, if any. -/
def lastPosAux (t : Char) : List Char → Nat → Option Nat → Option Nat
  | [], _, acc => acc
  | c :: cs, i, acc => lastPosAux t cs (i + 1) (if c = t then some i else acc)

/-- Rightmost position of a character in a list, if any. -/
def lastPos (t : Char) (l : List Char) : Option Nat := lastPosAux t l 0 none

/-- os.path.splitext: split off the extension at the last dot of the base
name, unless the base name up to that dot is all dots. -/
def splitext (p : String) : String × String :=
  let l := p.toList
  match lastPos '.' l with
  | none => (p, "")
  | some d =>
      let s := match lastPos '/' l with
        | none => 0
        | some i => i + 1
      if d ≤ s then (p, "")
      else if ((l.drop s).take (d - s)).all (fun c => c == '.') then (p, "")
      else (String.mk (l.take d), String.mk (l.drop d))

/-- The unknown-member policy enumeration of libmat2. -/
inductive UnknownMemberPolicy where
  | ABORT
  | KEEP
  | OMIT
deriving Repr, DecidableEq

/-- The per-request cleaning options the orchestrator sets on a parser
before invoking the engine. -/
structure ParserCfg where
  unknown_member_policy : UnknownMemberPolicy
  lightweight_cleaning : Bool
  sandbox : Bool
deriving Repr, DecidableEq

/-- An engine parser capability: an output path for cleaned results, a
metadata extraction operation (which may raise), and a remove-all
operation (which may raise a RuntimeError, and may write the output
file, hence it returns a new filesystem alongside its success flag). -/
structure Parser where
  output_filename : String
  get_meta : Bool → FS → Except String Meta
  remove_all : ParserCfg → FS → Except String (Bool × FS)

/-- Result of resolving a parser through the parser factory: it may
raise a ValueError, or return a parser option together with the
detected format label. -/
inductive ParserResolution where
  | raiseValue (msg : String)
  | found (p : Option Parser) (mtype : String)

/-- The abstract metadata engine: resolves a parser for a path. -/
structure Engine where
  getParser : String → FS → ParserResolution

/-- Pipeline events recorded while a request is processed. -/
inductive Ev where
  | persist (path : String)
  | poolSubmit
  | checkFile (path : String) (mode : Nat) (ok : Bool)
  | getParser (path : String)
  | setSandbox (b : Bool)
  | setPolicy (p : UnknownMemberPolicy)
  | setLightweight (b : Bool)
  | engineExtract
  | engineRemoveAll
  | copymode (src dst : String)
  | renameFile (src dst : String)
  | removeFile (path : String)
deriving Repr, DecidableEq

/-- An io.BytesIO buffer: the bytes and the current stream position. -/
structure Buffer where
  data : Bytes
  pos : Nat
deriving Repr, DecidableEq

/-- The outcome of a request as the client sees it: a JSON metadata
response, a streamed attachment, a raised HTTPException turned into an
error response, or an exception escaping the handler. -/
inductive HResult where
  | json (m : Meta)
  | stream (buf : Buffer) (filename : String)
  | httpError (status : Nat) (detail : String)
  | unhandled (msg : String)
deriving Repr, DecidableEq

/-- Errors get_meta can raise: an HTTPException, or any other exception
coming out of the engine extraction. -/
inductive GmErr where
  | http (status : Nat) (detail : String)
  | exc (msg : String)
deriving Repr, DecidableEq

/-- Errors clean_meta can raise: ValueError, RuntimeError, or an OS
error escaping from copymode or rename. -/
inductive CmErr where
  | value (msg : String)
  | runtime (msg : String)
  | os (msg : String)
deriving Repr, DecidableEq

/-- The accessibility guard __check_file of the source: the path exists,
is a regular file, and is accessible with the requested mode.  The
logging calls of the source are elided. -/
def check_file (fs : FS) (filename : String) (mode : Nat) : Bool :=
  if !path_exists fs filename then false
  else if !isfile fs filename then false
  else if !os_access fs filename mode then false
  else true

/-- The artifact name both endpoints generate: the f-string directly
concatenating uuid.uuid4() and file.filename. -/
def artifact_name (u fname : String) : String := u ++ fname

/-- Artifact name as the spec words it, uuid and filename joined by a
dash separator; kept as a separate definition so it can be compared
with the generated name. -/
def spec_artifact_name (u fname : String) : String := u ++ "-" ++ fname

/-- The filesystem right after the upload body is flushed to the artifact
path.  The read and write accessibility of the fresh file reflect the
host environment (umask, ACLs, disk state) and are passed in as ur, uw. -/
def persistedFS (cwd : String) (fs : FS) (u fname : String) (content : Bytes)
    (ur uw : Bool) : FS :=
  fsSet fs (resolve cwd (artifact_name u fname)) ⟨content, ur, uw, true⟩

/-- The get_meta helper of the source: guard the file, resolve a parser,
translate resolution failures into HTTPExceptions, set the sandbox flag
and extract.  Returns the result together with the event trace. -/
def get_meta (eng : Engine) (fs : FS) (filename : String) (sandbox : Bool) :
    Except GmErr Meta × List Ev :=
  let chk := check_file fs filename R_OK
  if !chk then
    (Except.error (GmErr.http 500 "File error"), [Ev.checkFile filename R_OK chk])
  else
    match eng.getParser filename fs with
    | ParserResolution.raiseValue e =>
        (Except.error (GmErr.http 400 ("something went wrong during processing: " ++ e)),
         [Ev.checkFile filename R_OK chk, Ev.getParser filename])
    | ParserResolution.found none mtype =>
        (Except.error (GmErr.http 400 ("format (" ++ mtype ++ ") is not supported")),
         [Ev.checkFile filename R_OK chk, Ev.getParser filename])
    | ParserResolution.found (some p) _ =>
        match p.get_meta sandbox fs with
        | Except.ok m =>
            (Except.ok m,
             [Ev.checkFile filename R_OK chk, Ev.getParser filename,
              Ev.setSandbox sandbox, Ev.engineExtract])
        | Except.error e =>
            (Except.error (GmErr.exc e),
             [Ev.checkFile filename R_OK chk, Ev.getParser filename,
              Ev.setSandbox sandbox, Ev.engineExtract])

/-- The clean_meta worker function of the source: guard the file with
read plus write when in place, resolve a parser (ValueError on failure
or unsupported format), propagate the cleaning configuration onto the
parser, invoke remove_all, and on success copy the permission bits onto
the output and, in place, rename the output over the original path. -/
def clean_meta (eng : Engine) (fs : FS) (filename : String) (is_lightweight : Bool)
    (inplace : Bool) (sandbox : Bool) (policy : UnknownMemberPolicy) :
    Except CmErr Bool × FS × List Ev :=
  let mode := if inplace then R_OK ||| W_OK else R_OK
  let chk := check_file fs filename mode
  if !chk then (Except.ok false, fs, [Ev.checkFile filename mode chk])
  else
    match eng.getParser filename fs with
    | ParserResolution.raiseValue e =>
        (Except.error (CmErr.value ("something went wrong during cleaning: " ++ e)), fs,
         [Ev.checkFile filename mode chk, Ev.getParser filename])
    | ParserResolution.found none mtype =>
        (Except.error (CmErr.value ("format (" ++ mtype ++ ") is not supported")), fs,
         [Ev.checkFile filename mode chk, Ev.getParser filename])
    | ParserResolution.found (some p) _ =>
        let evs := [Ev.checkFile filename mode chk, Ev.getParser filename,
                    Ev.setPolicy policy, Ev.setLightweight is_lightweight,
                    Ev.setSandbox sandbox, Ev.engineRemoveAll]
        match p.remove_all ⟨policy, is_lightweight, sandbox⟩ fs with
        | Except.error e =>
            (Except.error (CmErr.runtime ("cannot be cleaned: " ++ e)), fs, evs)
        | Except.ok (ret, fs1) =>
            if ret then
              match shutil_copymode fs1 filename p.output_filename with
              | Except.error e => (Except.error (CmErr.os e), fs1, evs)
              | Except.ok fs2 =>
                  let evs2 := evs ++ [Ev.copymode filename p.output_filename]
                  if inplace then
                    match os_rename fs2 p.output_filename filename with
                    | Except.error e => (Except.error (CmErr.os e), fs2, evs2)
                    | Except.ok fs3 =>
                        (Except.ok true, fs3,
                         evs2 ++ [Ev.renameFile p.output_filename filename])
                  else (Except.ok true, fs2, evs2)
            else (Except.ok ret, fs1, evs)

/-- cache_delete_file of the source: read the whole file into a fresh
in-memory buffer, rewind it to offset zero, delete the file, return the
buffer.  The returned value is typed as optional only at the call site;
the function itself always produces a buffer when it returns normally. -/
def cache_delete_file (cwd : String) (fs : FS) (filename : String) :
    Except String (Option Buffer × FS) :=
  let ap := os_abspath cwd filename
  match fsLookup fs ap with
  | none => Except.error "FileNotFoundError"
  | some e =>
      if !e.isRegular then Except.error "IsADirectoryError"
      else if !e.readable then Except.error "PermissionError"
      else
        match os_remove fs ap with
        | Except.error m => Except.error m
        | Except.ok fs2 => Except.ok (some ⟨e.content, 0⟩, fs2)

/-- The show endpoint: persist the upload, call get_meta directly on the
handler (no pool submission in the source), translate its outcome into
a response (HTTPExceptions pass through, any other exception becomes a
500 with a generic detail), and in the finally clause remove the
artifact unconditionally. -/
def show_handler (eng : Engine) (cwd : String) (fs : FS) (u fname : String)
    (content : Bytes) (ur uw : Bool) (sandbox : Bool) :
    HResult × FS × List Ev :=
  let filename := artifact_name u fname
  let rp := resolve cwd filename
  let fs1 := persistedFS cwd fs u fname content ur uw
  let gm := get_meta eng fs1 (os_abspath cwd filename) sandbox
  let res0 : HResult :=
    match gm.1 with
    | Except.ok m => HResult.json m
    | Except.error (GmErr.http s d) => HResult.httpError s d
    | Except.error (GmErr.exc _) => HResult.httpError 500 "Metadata cannot be extracted"
  match os_remove fs1 rp with
  | Except.ok fs2 => (res0, fs2, Ev.persist rp :: gm.2 ++ [Ev.removeFile rp])
  | Except.error m => (HResult.unhandled m, fs1, Ev.persist rp :: gm.2)

/-- Outcome of the try block of the clean endpoint before its finally
clause: a returned buffer, a caught ValueError or RuntimeError about to
be re-raised as HTTP 400, an exception escaping the handler, or the
fall-through to the trailing 400. -/
inductive TryOut where
  | ret (d : Buffer)
  | exc400 (msg : String)
  | unhand (msg : String)
  | fallth
deriving Repr, DecidableEq

/-- The clean endpoint: persist the upload, submit clean_meta to the
worker pool and await it, on success capture and delete the artifact and
stream it back, map ValueError and RuntimeError to HTTP 400, let other
exceptions escape, and in the finally clause remove the artifact if it
is still a file; falling through the try block raises the trailing 400. -/
def clean (eng : Engine) (cwd : String) (fs : FS) (u fname : String)
    (content : Bytes) (ur uw : Bool) (lightweight : Bool)
    (unknown_members : UnknownMemberPolicy) (sandbox : Bool) :
    HResult × FS × List Ev :=
  let filename := artifact_name u fname
  let rp := resolve cwd filename
  let fs1 := persistedFS cwd fs u fname content ur uw
  let se := splitext fname
  let cm := clean_meta eng fs1 (os_abspath cwd filename) lightweight true sandbox
    unknown_members
  let evs0 := Ev.persist rp :: Ev.poolSubmit :: cm.2.2
  let step : TryOut × FS :=
    match cm.1 with
    | Except.error (CmErr.value m) => (TryOut.exc400 m, cm.2.1)
    | Except.error (CmErr.runtime m) => (TryOut.exc400 m, cm.2.1)
    | Except.error (CmErr.os m) => (TryOut.unhand m, cm.2.1)
    | Except.ok is_success =>
        if is_success then
          match cache_delete_file cwd cm.2.1 filename with
          | Except.ok (some d, fs3) => (TryOut.ret d, fs3)
          | Except.ok (none, fs3) => (TryOut.fallth, fs3)
          | Except.error m => (TryOut.unhand m, cm.2.1)
        else (TryOut.fallth, cm.2.1)
  let fs4 := if isfile step.2 rp then fsErase step.2 rp else step.2
  let evs1 := evs0 ++ (if isfile step.2 rp then [Ev.removeFile rp] else [])
  let resp : HResult :=
    match step.1 with
    | TryOut.ret d => HResult.stream d (se.1 ++ "_metaclean" ++ se.2)
    | TryOut.exc400 m => HResult.httpError 400 m
    | TryOut.unhand m => HResult.unhandled m
    | TryOut.fallth => HResult.httpError 400 "Failed to remove metadata"
  (resp, fs4, evs1)

/-! Association-list lemmas about the filesystem model. -/

theorem fsLookup_erase_self (fs : FS) (p : String) : fsLookup (fsErase fs p) p = none := by
  induction fs with
  | nil => rfl
  | cons kv rest ih =>
      obtain ⟨q, e⟩ := kv
      by_cases h : q = p
      · simpa [fsErase, List.filter_cons, h] using ih
      · simpa [fsErase, List.filter_cons, h, fsLookup] using ih

theorem fsLookup_erase_ne (fs : FS) (p q : String) (h : q ≠ p) :
    fsLookup (fsErase fs p) q = fsLookup fs q := by
  induction fs with
  | nil => rfl
  | cons kv rest ih =>
      obtain ⟨r, e⟩ := kv
      simp only [fsErase] at ih ⊢
      rw [List.filter_cons]
      by_cases hr : r = p
      · subst hr
        simp [fsLookup, Ne.symm h, ih]
      · by_cases hq : r = q
        · subst hq
          simp [fsLookup, h]
        · simp [fsLookup, hr, hq, ih]

theorem fsLookup_set_self (fs : FS) (p : String) (e : FileEntry) :
    fsLookup (fsSet fs p e) p = some e := by
  simp [fsSet, fsLookup]

theorem fsLookup_set_ne (fs : FS) (p q : String) (e : FileEntry) (h : q ≠ p) :
    fsLookup (fsSet fs p e) q = fsLookup fs q := by
  have : p ≠ q := Ne.symm h
  simp [fsSet, fsLookup, this, fsLookup_erase_ne fs p q h]

theorem isfile_remove_guard (fs : FS) (p : String) :
    isfile (if isfile fs p then fsErase fs p else fs) p = false := by
  by_cases h : isfile fs p = true
  · rw [if_pos h]
    simp [isfile, fsLookup_erase_self]
  · rw [if_neg h]
    simpa using h

theorem os_remove_persisted (fs : FS) (p : String) (c : Bytes) (r w : Bool) :
    os_remove (fsSet fs p ⟨c, r, w, true⟩) p =
      Except.ok (fsErase (fsSet fs p ⟨c, r, w, true⟩) p) := by
  simp [os_remove, fsLookup_set_self]

/-- C1: on both endpoints, once the response is finalized the artifact
file no longer exists at the generated path: show removes it in its
finally clause on every exit path, and the finally clause of clean
removes it only if it still is a file, which makes it idempotent when
the capture step already consumed and deleted it. -/
theorem cleanup_invariant (eng : Engine) (cwd : String) (fs : FS) (u fname : String)
    (content : Bytes) (ur uw ur2 uw2 sandbox lightweight sb2 : Bool)
    (policy : UnknownMemberPolicy) :
    isfile (show_handler eng cwd fs u fname content ur uw sandbox).2.1
      (resolve cwd (artifact_name u fname)) = false ∧
    isfile (clean eng cwd fs u fname content ur2 uw2 lightweight policy sb2).2.1
      (resolve cwd (artifact_name u fname)) = false := by
  constructor
  · simp only [show_handler, persistedFS, os_remove_persisted]
    simp [isfile, fsLookup_erase_self]
  · simp only [clean]
    exact isfile_remove_guard _ _

/-- Accessibility check of a freshly persisted artifact: the path exists
and is a regular file, so the outcome is decided by its permission bits. -/
theorem check_file_persisted (fs : FS) (p : String) (c : Bytes) (r w : Bool) (m : Nat) :
    check_file (fsSet fs p ⟨c, r, w, true⟩) p m =
      ((m &&& R_OK == 0 || r) && (m &&& W_OK == 0 || w)) := by
  simp only [check_file, path_exists, isfile, os_access, fsLookup_set_self]
  cases hb : ((m &&& R_OK == 0 || r) && (m &&& W_OK == 0 || w)) <;> simp [hb]

theorem get_meta_check_fail (eng : Engine) (fs : FS) (filename : String) (sandbox : Bool)
    (h : check_file fs filename R_OK = false) :
    get_meta eng fs filename sandbox =
      (Except.error (GmErr.http 500 "File error"),
       [Ev.checkFile filename R_OK false]) := by
  simp [get_meta, h]

theorem clean_meta_check_fail (eng : Engine) (fs : FS) (filename : String)
    (lw sandbox : Bool) (policy : UnknownMemberPolicy)
    (h : check_file fs filename (R_OK ||| W_OK) = false) :
    clean_meta eng fs filename lw true sandbox policy =
      (Except.ok false, fs, [Ev.checkFile filename (R_OK ||| W_OK) false]) := by
  simp [clean_meta, h]

/-- When the awaited worker call reports failure, clean falls through to
the trailing 400. -/
theorem clean_fallthrough (eng : Engine) (cwd : String) (fs : FS) (u fname : String)
    (content : Bytes) (ur uw lightweight sandbox : Bool) (policy : UnknownMemberPolicy)
    (h : (clean_meta eng (persistedFS cwd fs u fname content ur uw)
        (os_abspath cwd (artifact_name u fname)) lightweight true sandbox policy).1 =
      Except.ok false) :
    (clean eng cwd fs u fname content ur uw lightweight policy sandbox).1 =
      HResult.httpError 400 "Failed to remove metadata" := by
  simp only [clean, h]
  rfl

/-- The response of show is determined by the outcome of get_meta on the
persisted artifact: the finally clause always succeeds in removing the
artifact, so it never masks the primary outcome. -/
theorem show_result (eng : Engine) (cwd : String) (fs : FS) (u fname : String)
    (content : Bytes) (ur uw sandbox : Bool) :
    (show_handler eng cwd fs u fname content ur uw sandbox).1 =
      match (get_meta eng (persistedFS cwd fs u fname content ur uw)
          (os_abspath cwd (artifact_name u fname)) sandbox).1 with
      | Except.ok m => HResult.json m
      | Except.error (GmErr.http s d) => HResult.httpError s d
      | Except.error (GmErr.exc _) => HResult.httpError 500 "Metadata cannot be extracted" := by
  simp only [show_handler, persistedFS, os_remove_persisted]

/-- A concrete engine whose parser resolution finds no parser, used for
evaluating the pipeline on unsupported content. -/
def unknownEngine : Engine := ⟨fun _ _ => ParserResolution.found none "data"⟩

/-- C2 (amended): when the persisted artifact fails its accessibility
check, the inspect flow raises HTTP 500 with the generic detail File
error, while the clean flow reports the failure as HTTP 400 with the
generic detail Failed to remove metadata; neither detail carries the
internal path. -/
theorem resource_error_status (eng : Engine) (cwd : String) (fs : FS) (u fname : String)
    (content : Bytes) (ur uw sandbox lightweight sb2 : Bool)
    (policy : UnknownMemberPolicy) :
    (ur = false →
      (show_handler eng cwd fs u fname content ur uw sandbox).1 =
        HResult.httpError 500 "File error") ∧
    ((ur && uw) = false →
      (clean eng cwd fs u fname content ur uw lightweight policy sb2).1 =
        HResult.httpError 400 "Failed to remove metadata") := by
  constructor
  · intro h
    subst h
    have hchk : check_file (persistedFS cwd fs u fname content false uw)
        (os_abspath cwd (artifact_name u fname)) R_OK = false := by
      simp only [persistedFS, os_abspath]
      rw [check_file_persisted]
      simp [R_OK, W_OK]
    rw [show_result, get_meta_check_fail eng _ _ sandbox hchk]
  · intro h
    have hchk : check_file (persistedFS cwd fs u fname content ur uw)
        (os_abspath cwd (artifact_name u fname)) (R_OK ||| W_OK) = false := by
      simp only [persistedFS, os_abspath]
      rw [check_file_persisted]
      simpa [R_OK, W_OK] using h
    apply clean_fallthrough
    rw [clean_meta_check_fail eng _ _ lightweight sb2 policy hchk]

/-- C2 counterexample: a clean request whose persisted artifact fails the
accessibility check is answered with HTTP 400, not a 500-class error. -/
theorem resource_error_clean_counterexample :
    (clean unknownEngine "/app" [] "u1" "a.pdf" [7] false true false
        UnknownMemberPolicy.ABORT true).1 =
      HResult.httpError 400 "Failed to remove metadata" ∧
    ¬ (500 ≤ 400 ∧ 400 < 600) := by
  constructor
  · decide
  · decide

/-- C2 witness: instantiation of the amended statement on a concrete
request whose persisted artifact is not readable. -/
theorem resource_error_status_witness :
    (show_handler unknownEngine "/app" [] "u1" "a.pdf" [7] false true true).1 =
      HResult.httpError 500 "File error" ∧
    (clean unknownEngine "/app" [] "u1" "a.pdf" [7] false true false
        UnknownMemberPolicy.ABORT true).1 =
      HResult.httpError 400 "Failed to remove metadata" :=
  ⟨(resource_error_status unknownEngine "/app" [] "u1" "a.pdf" [7] false true true false
      true UnknownMemberPolicy.ABORT).1 rfl,
   (resource_error_status unknownEngine "/app" [] "u1" "a.pdf" [7] false true true false
      true UnknownMemberPolicy.ABORT).2 rfl⟩

/-- A ValueError escaping the worker call is re-raised by clean as an
HTTPException with status 400 and the error text as detail. -/
theorem clean_value_error (eng : Engine) (cwd : String) (fs : FS) (u fname : String)
    (content : Bytes) (ur uw lightweight sandbox : Bool) (policy : UnknownMemberPolicy)
    (m : String)
    (h : (clean_meta eng (persistedFS cwd fs u fname content ur uw)
        (os_abspath cwd (artifact_name u fname)) lightweight true sandbox policy).1 =
      Except.error (CmErr.value m)) :
    (clean eng cwd fs u fname content ur uw lightweight policy sandbox).1 =
      HResult.httpError 400 m := by
  simp only [clean, h]

theorem clean_meta_unsupported (eng : Engine) (fs : FS) (filename : String)
    (lw sandbox : Bool) (policy : UnknownMemberPolicy) (mtype : String)
    (hchk : check_file fs filename (R_OK ||| W_OK) = true)
    (hp : eng.getParser filename fs = ParserResolution.found none mtype) :
    clean_meta eng fs filename lw true sandbox policy =
      (Except.error (CmErr.value ("format (" ++ mtype ++ ") is not supported")), fs,
       [Ev.checkFile filename (R_OK ||| W_OK) true, Ev.getParser filename]) := by
  simp [clean_meta, hchk, hp]

/-- C5: when parser resolution finds no parser for the persisted upload,
both endpoints answer HTTP 400 with a detail stating that the detected
format is not supported. -/
theorem unsupported_format_400 (eng : Engine) (cwd : String) (fs : FS) (u fname : String)
    (content : Bytes) (sandbox lightweight sb2 : Bool) (policy : UnknownMemberPolicy)
    (mtype : String)
    (hp : eng.getParser (os_abspath cwd (artifact_name u fname))
        (persistedFS cwd fs u fname content true true) =
      ParserResolution.found none mtype) :
    (show_handler eng cwd fs u fname content true true sandbox).1 =
      HResult.httpError 400 ("format (" ++ mtype ++ ") is not supported") ∧
    (clean eng cwd fs u fname content true true lightweight policy sb2).1 =
      HResult.httpError 400 ("format (" ++ mtype ++ ") is not supported") := by
  have hchk4 : check_file (persistedFS cwd fs u fname content true true)
      (os_abspath cwd (artifact_name u fname)) R_OK = true := by
    simp only [persistedFS, os_abspath]
    rw [check_file_persisted]
    simp
  have hchk6 : check_file (persistedFS cwd fs u fname content true true)
      (os_abspath cwd (artifact_name u fname)) (R_OK ||| W_OK) = true := by
    simp only [persistedFS, os_abspath]
    rw [check_file_persisted]
    simp
  constructor
  · rw [show_result]
    simp [get_meta, hchk4, hp]
  · exact clean_value_error eng cwd fs u fname content true true lightweight sb2 policy _
      (by rw [clean_meta_unsupported eng _ _ lightweight sb2 policy mtype hchk6 hp])

/-- C5 witness: instantiation on a concrete engine that resolves no
parser for the uploaded content. -/
theorem unsupported_format_400_witness :
    (show_handler unknownEngine "/app" [] "u1" "a.pdf" [7] true true true).1 =
      HResult.httpError 400 ("format (" ++ "data" ++ ") is not supported") ∧
    (clean unknownEngine "/app" [] "u1" "a.pdf" [7] true true false
        UnknownMemberPolicy.ABORT true).1 =
      HResult.httpError 400 ("format (" ++ "data" ++ ") is not supported") :=
  unsupported_format_400 unknownEngine "/app" [] "u1" "a.pdf" [7] true false true
    UnknownMemberPolicy.ABORT "data" rfl

/-- A concrete parser that cleans successfully: remove_all writes a
cleaned copy to the output path and reports success. -/
def okParser : Parser :=
  { output_filename := "/app/u1a.pdf.cleaned"
    get_meta := fun _ _ => Except.ok [("creator", "demo")]
    remove_all := fun _ fs =>
      Except.ok (true, fsSet fs "/app/u1a.pdf.cleaned" ⟨[9, 9], true, true, true⟩) }

/-- A concrete engine resolving okParser for every path. -/
def okEngine : Engine := ⟨fun _ _ => ParserResolution.found (some okParser) "application/pdf"⟩

/-- The inspect helper get_meta performs no pool submission. -/
theorem get_meta_no_pool (eng : Engine) (fs : FS) (filename : String) (sandbox : Bool) :
    Ev.poolSubmit ∉ (get_meta eng fs filename sandbox).2 := by
  simp only [get_meta]
  split
  · simp
  · split
    · simp
    · simp
    · split <;> simp

/-- C3 (amended): the clean endpoint submits its engine invocation to
the worker pool and awaits it, while the show endpoint executes the
extraction directly on the handler, never submitting to the pool. -/
theorem pool_dispatch (eng : Engine) (cwd : String) (fs : FS) (u fname : String)
    (content : Bytes) (ur uw ur2 uw2 sandbox lightweight sb2 : Bool)
    (policy : UnknownMemberPolicy) :
    Ev.poolSubmit ∈ (clean eng cwd fs u fname content ur2 uw2 lightweight policy sb2).2.2 ∧
    Ev.poolSubmit ∉ (show_handler eng cwd fs u fname content ur uw sandbox).2.2 := by
  constructor
  · simp only [clean]
    simp [List.mem_append]
  · simp only [show_handler]
    split <;> simp [List.mem_append, get_meta_no_pool eng _ _ sandbox]

/-- C3 counterexample: a concrete show request whose trace performs the
engine extraction but contains no pool submission. -/
theorem show_inline_counterexample :
    Ev.engineExtract ∈ (show_handler okEngine "/app" [] "u1" "a.pdf" [7] true true true).2.2 ∧
    Ev.poolSubmit ∉ (show_handler okEngine "/app" [] "u1" "a.pdf" [7] true true true).2.2 := by
  decide

/-- C4 (amended): both endpoints persist the upload as a file directly
under the working directory whose name is the fresh uuid directly
concatenated with the client-supplied filename, with no separator. -/
theorem artifact_naming (eng : Engine) (cwd : String) (fs : FS) (u fname : String)
    (content : Bytes) (ur uw ur2 uw2 sandbox lightweight sb2 : Bool)
    (policy : UnknownMemberPolicy)
    (h : isAbsolute (artifact_name u fname) = false) :
    Ev.persist (cwd ++ "/" ++ artifact_name u fname) ∈
      (show_handler eng cwd fs u fname content ur uw sandbox).2.2 ∧
    Ev.persist (cwd ++ "/" ++ artifact_name u fname) ∈
      (clean eng cwd fs u fname content ur2 uw2 lightweight policy sb2).2.2 ∧
    artifact_name u fname = u ++ fname := by
  have hres : resolve cwd (artifact_name u fname) = cwd ++ "/" ++ artifact_name u fname := by
    simp [resolve, h]
  refine ⟨?_, ?_, rfl⟩
  · simp only [show_handler, hres]
    split <;> simp
  · simp only [clean, hres]
    simp

/-- C4 witness: instantiation of the amended statement on a concrete
request. -/
theorem artifact_naming_witness :
    Ev.persist ("/app" ++ "/" ++ artifact_name "u1" "a.pdf") ∈
      (show_handler okEngine "/app" [] "u1" "a.pdf" [7] true true true).2.2 ∧
    Ev.persist ("/app" ++ "/" ++ artifact_name "u1" "a.pdf") ∈
      (clean okEngine "/app" [] "u1" "a.pdf" [7] true true false
        UnknownMemberPolicy.ABORT true).2.2 ∧
    artifact_name "u1" "a.pdf" = "u1" ++ "a.pdf" :=
  artifact_naming okEngine "/app" [] "u1" "a.pdf" [7] true true true true true false true
    UnknownMemberPolicy.ABORT rfl

/-- C4 counterexample: with a concrete uuid and filename the generated
artifact name is the plain concatenation, not the dash-separated name
the claim describes, and only the former is persisted. -/
theorem artifact_naming_counterexample :
    artifact_name "123e4567-e89b-12d3-a456-426614174000" "doc.pdf" ≠
      spec_artifact_name "123e4567-e89b-12d3-a456-426614174000" "doc.pdf" ∧
    Ev.persist (resolve "/app" (spec_artifact_name "u1" "a.pdf")) ∉
      (show_handler okEngine "/app" [] "u1" "a.pdf" [7] true true true).2.2 ∧
    Ev.persist (resolve "/app" (artifact_name "u1" "a.pdf")) ∈
      (show_handler okEngine "/app" [] "u1" "a.pdf" [7] true true true).2.2 := by
  refine ⟨by decide, by decide, by decide⟩

/-- A concrete filesystem holding one readable and writable artifact. -/
def demoFS : FS := [("/app/u1a.pdf", ⟨[7], true, true, true⟩)]

/-- C6: when the engine remove-all call reports success, clean_meta
copies the original permission bits of the artifact onto the engine
output and, invoked in place, renames the output over the original
artifact path, which afterwards holds the cleaned content under the
original permissions; clean_meta then returns True. -/
theorem clean_success_rename (eng : Engine) (fs : FS) (filename : String)
    (lw sandbox : Bool) (policy : UnknownMemberPolicy) (p : Parser) (mt : String)
    (fs1 : FS) (ef eo : FileEntry)
    (hchk : check_file fs filename (R_OK ||| W_OK) = true)
    (hp : eng.getParser filename fs = ParserResolution.found (some p) mt)
    (hra : p.remove_all ⟨policy, lw, sandbox⟩ fs = Except.ok (true, fs1))
    (hef : fsLookup fs1 filename = some ef)
    (heo : fsLookup fs1 p.output_filename = some eo)
    (hne : p.output_filename ≠ filename) :
    (clean_meta eng fs filename lw true sandbox policy).1 = Except.ok true ∧
    fsLookup (clean_meta eng fs filename lw true sandbox policy).2.1 filename =
      some ⟨eo.content, ef.readable, ef.writable, eo.isRegular⟩ ∧
    fsLookup (clean_meta eng fs filename lw true sandbox policy).2.1 p.output_filename =
      none := by
  simp only [clean_meta, hchk, hp, hra, shutil_copymode, hef, heo, os_rename,
    fsLookup_set_self, Bool.not_true, Bool.false_eq_true, if_false, ite_true, ite_false]
  refine ⟨trivial, ?_, ?_⟩
  · simp [fsLookup_set_self]
  · simp [fsLookup_set_ne _ _ _ _ hne, fsLookup_erase_self]

/-- C6 witness: instantiation on a concrete engine whose parser cleans
the demo artifact into a fresh output file. -/
theorem clean_success_rename_witness :
    (clean_meta okEngine demoFS "/app/u1a.pdf" false true true
        UnknownMemberPolicy.ABORT).1 = Except.ok true ∧
    fsLookup (clean_meta okEngine demoFS "/app/u1a.pdf" false true true
        UnknownMemberPolicy.ABORT).2.1 "/app/u1a.pdf" =
      some ⟨[9, 9], true, true, true⟩ ∧
    fsLookup (clean_meta okEngine demoFS "/app/u1a.pdf" false true true
        UnknownMemberPolicy.ABORT).2.1 "/app/u1a.pdf.cleaned" = none :=
  clean_success_rename okEngine demoFS "/app/u1a.pdf" false true
    UnknownMemberPolicy.ABORT okParser "application/pdf"
    (fsSet demoFS "/app/u1a.pdf.cleaned" ⟨[9, 9], true, true, true⟩)
    ⟨[7], true, true, true⟩ ⟨[9, 9], true, true, true⟩
    (by decide) rfl rfl (by decide) (by decide) (by decide)

/-- C7: the accessibility check returns true exactly when the path
exists, is a regular file, and carries the requested permission bits;
every check the clean worker performs for its in-place rewrite requests
read plus write, and every check the inspect helper performs requests
read only. -/
theorem check_file_spec :
    (∀ (fs : FS) (name : String) (mode : Nat),
      check_file fs name mode = true ↔
        (path_exists fs name = true ∧ isfile fs name = true ∧
         os_access fs name mode = true)) ∧
    (∀ (eng : Engine) (fs : FS) (fn : String) (lw sb : Bool)
        (pol : UnknownMemberPolicy) (p : String) (m : Nat) (ok : Bool),
      Ev.checkFile p m ok ∈ (clean_meta eng fs fn lw true sb pol).2.2 →
        m = (R_OK ||| W_OK)) ∧
    (∀ (eng : Engine) (fs : FS) (fn : String) (sb : Bool)
        (p : String) (m : Nat) (ok : Bool),
      Ev.checkFile p m ok ∈ (get_meta eng fs fn sb).2 → m = R_OK) := by
  refine ⟨?_, ?_, ?_⟩
  · intro fs name mode
    simp only [check_file]
    cases h1 : path_exists fs name <;> cases h2 : isfile fs name <;>
      cases h3 : os_access fs name mode <;> simp [h1, h2, h3]
  · intro eng fs fn lw sb pol p m ok hmem
    simp only [clean_meta] at hmem
    repeat' split at hmem
    all_goals simp_all
  · intro eng fs fn sb p m ok hmem
    simp only [get_meta] at hmem
    repeat' split at hmem
    all_goals simp_all

/-- C7 witness: the characterization and the clean-flow mode instance
on concrete inputs. -/
theorem check_file_spec_witness :
    (check_file demoFS "/app/u1a.pdf" R_OK = true ↔
      (path_exists demoFS "/app/u1a.pdf" = true ∧
       isfile demoFS "/app/u1a.pdf" = true ∧
       os_access demoFS "/app/u1a.pdf" R_OK = true)) ∧
    (6 : Nat) = (R_OK ||| W_OK) ∧ (4 : Nat) = R_OK :=
  ⟨check_file_spec.1 demoFS "/app/u1a.pdf" R_OK,
   check_file_spec.2.1 okEngine demoFS "/app/u1a.pdf" false true
     UnknownMemberPolicy.ABORT "/app/u1a.pdf" 6 true (by decide),
   check_file_spec.2.2 okEngine demoFS "/app/u1a.pdf" true "/app/u1a.pdf" 4 true
     (by decide)⟩

/-- C8: whenever clean_meta reaches the engine remove-all invocation,
its trace opens with the guard and parser resolution followed at once by
the three configuration fields being set on the parser with the request
values and then the invocation; likewise get_meta sets the sandbox flag
on the parser immediately before extracting. -/
theorem config_propagation :
    (∀ (eng : Engine) (fs : FS) (fn : String) (lw sb : Bool) (pol : UnknownMemberPolicy),
      Ev.engineRemoveAll ∈ (clean_meta eng fs fn lw true sb pol).2.2 →
        (clean_meta eng fs fn lw true sb pol).2.2.take 6 =
          [Ev.checkFile fn (R_OK ||| W_OK) true, Ev.getParser fn, Ev.setPolicy pol,
           Ev.setLightweight lw, Ev.setSandbox sb, Ev.engineRemoveAll]) ∧
    (∀ (eng : Engine) (fs : FS) (fn : String) (sb : Bool),
      Ev.engineExtract ∈ (get_meta eng fs fn sb).2 →
        (get_meta eng fs fn sb).2.take 4 =
          [Ev.checkFile fn R_OK true, Ev.getParser fn, Ev.setSandbox sb,
           Ev.engineExtract]) := by
  constructor
  · intro eng fs fn lw sb pol hmem
    by_cases hchk : check_file fs fn (R_OK ||| W_OK) = true
    · cases hp : eng.getParser fn fs with
      | raiseValue e => simp [clean_meta, hchk, hp] at hmem
      | found po mt =>
          cases po with
          | none => simp [clean_meta, hchk, hp] at hmem
          | some p =>
              cases hra : p.remove_all ⟨pol, lw, sb⟩ fs with
              | error e => simp [clean_meta, hchk, hp, hra]
              | ok pr =>
                  obtain ⟨ret, fs1⟩ := pr
                  cases ret
                  · simp [clean_meta, hchk, hp, hra]
                  · cases hcm : shutil_copymode fs1 fn p.output_filename with
                    | error e => simp [clean_meta, hchk, hp, hra, hcm]
                    | ok fs2 =>
                        cases hrn : os_rename fs2 p.output_filename fn with
                        | error e => simp [clean_meta, hchk, hp, hra, hcm, hrn]
                        | ok fs3 => simp [clean_meta, hchk, hp, hra, hcm, hrn]
    · have hchk' : check_file fs fn (R_OK ||| W_OK) = false := by simpa using hchk
      rw [clean_meta_check_fail eng fs fn lw sb pol hchk'] at hmem
      simp at hmem
  · intro eng fs fn sb hmem
    by_cases hchk : check_file fs fn R_OK = true
    · cases hp : eng.getParser fn fs with
      | raiseValue e => simp [get_meta, hchk, hp] at hmem
      | found po mt =>
          cases po with
          | none => simp [get_meta, hchk, hp] at hmem
          | some p =>
              cases hgm : p.get_meta sb fs with
              | error e => simp [get_meta, hchk, hp, hgm]
              | ok m => simp [get_meta, hchk, hp, hgm]
    · have hchk' : check_file fs fn R_OK = false := by simpa using hchk
      rw [get_meta_check_fail eng fs fn sb hchk'] at hmem
      simp at hmem

/-- C8 witness: instantiation on a concrete engine reaching both engine
invocations. -/
theorem config_propagation_witness :
    (clean_meta okEngine demoFS "/app/u1a.pdf" false true true
        UnknownMemberPolicy.ABORT).2.2.take 6 =
      [Ev.checkFile "/app/u1a.pdf" (R_OK ||| W_OK) true, Ev.getParser "/app/u1a.pdf",
       Ev.setPolicy UnknownMemberPolicy.ABORT, Ev.setLightweight false,
       Ev.setSandbox true, Ev.engineRemoveAll] ∧
    (get_meta okEngine demoFS "/app/u1a.pdf" true).2.take 4 =
      [Ev.checkFile "/app/u1a.pdf" R_OK true, Ev.getParser "/app/u1a.pdf",
       Ev.setSandbox true, Ev.engineExtract] :=
  ⟨config_propagation.1 okEngine demoFS "/app/u1a.pdf" false true
     UnknownMemberPolicy.ABORT (by decide),
   config_propagation.2 okEngine demoFS "/app/u1a.pdf" true (by decide)⟩

/-- C9: on a path naming an existing readable regular file,
cache_delete_file returns a buffer holding the whole file content,
positioned at offset zero, and afterwards the file no longer exists on
disk. -/
theorem cache_delete_spec (cwd : String) (fs : FS) (filename : String) (e : FileEntry)
    (hl : fsLookup fs (os_abspath cwd filename) = some e)
    (hreg : e.isRegular = true) (hr : e.readable = true) :
    cache_delete_file cwd fs filename =
      Except.ok (some ⟨e.content, 0⟩, fsErase fs (os_abspath cwd filename)) ∧
    fsLookup (fsErase fs (os_abspath cwd filename)) (os_abspath cwd filename) = none := by
  constructor
  · simp [cache_delete_file, hl, hreg, hr, os_remove]
  · exact fsLookup_erase_self fs _

/-- C9 witness: instantiation on the concrete demo filesystem. -/
theorem cache_delete_spec_witness :
    cache_delete_file "/app" demoFS "u1a.pdf" =
      Except.ok (some ⟨[7], 0⟩, fsErase demoFS (os_abspath "/app" "u1a.pdf")) ∧
    fsLookup (fsErase demoFS (os_abspath "/app" "u1a.pdf"))
      (os_abspath "/app" "u1a.pdf") = none :=
  cache_delete_spec "/app" demoFS "u1a.pdf" ⟨[7], true, true, true⟩
    (by decide) rfl rfl

/-- C10: cache_delete_file never returns a missing buffer when it
returns normally, and consequently a clean request whose worker call
reports success and whose read-back succeeds is answered with the
streaming response, never with the trailing 400. -/
theorem cache_never_none (eng : Engine) (cwd : String) (fs : FS) (u fname : String)
    (content : Bytes) (ur uw lightweight sandbox : Bool) (policy : UnknownMemberPolicy)
    (b : Buffer) (fs2 : FS)
    (h1 : (clean_meta eng (persistedFS cwd fs u fname content ur uw)
        (os_abspath cwd (artifact_name u fname)) lightweight true sandbox policy).1 =
      Except.ok true)
    (h2 : cache_delete_file cwd
        (clean_meta eng (persistedFS cwd fs u fname content ur uw)
          (os_abspath cwd (artifact_name u fname)) lightweight true sandbox policy).2.1
        (artifact_name u fname) = Except.ok (some b, fs2)) :
    (∀ (c : String) (g : FS) (n : String) (r : Option Buffer × FS),
      cache_delete_file c g n = Except.ok r → r.1.isSome = true) ∧
    (clean eng cwd fs u fname content ur uw lightweight policy sandbox).1 =
      HResult.stream b ((splitext fname).1 ++ "_metaclean" ++ (splitext fname).2) := by
  constructor
  · intro c g n r h
    simp only [cache_delete_file] at h
    repeat' split at h
    all_goals simp_all
    subst h
    rfl
  · simp only [clean, h1, h2]
    simp

/-- C10 witness: instantiation on a concrete successful clean request. -/
theorem cache_never_none_witness :
    (∀ (c : String) (g : FS) (n : String) (r : Option Buffer × FS),
      cache_delete_file c g n = Except.ok r → r.1.isSome = true) ∧
    (clean okEngine "/app" [] "u1" "a.pdf" [7] true true false
        UnknownMemberPolicy.ABORT true).1 =
      HResult.stream ⟨[9, 9], 0⟩
        ((splitext "a.pdf").1 ++ "_metaclean" ++ (splitext "a.pdf").2) :=
  cache_never_none okEngine "/app" [] "u1" "a.pdf" [7] true true false true
    UnknownMemberPolicy.ABORT ⟨[9, 9], 0⟩
    (fsErase (clean_meta okEngine (persistedFS "/app" [] "u1" "a.pdf" [7] true true)
        (os_abspath "/app" (artifact_name "u1" "a.pdf")) false true true
        UnknownMemberPolicy.ABORT).2.1 "/app/u1a.pdf")
    rfl rfl

end MetaCleaner
